import Mathlib

/-! Verification model of the `bgp-ai-agent` BGP-4 speaker.

Python strings are modelled as `List Char` (`PyStr`), byte strings as
`List Nat` with entries below 256, and the decimal string conversions of
Python (`int(s)`, `str(n)`, `"%02d"`, dotted-quad printing of
`socket.inet_ntoa`) as explicit digit-list functions.  Fallible Python
operations (struct packing with out-of-range fields, `socket.inet_aton`
on malformed input, loops indexing past the end of a buffer) are
modelled with `Option`.
-/

namespace BGPAgent

/-- Python strings are modelled as lists of characters. -/
abbrev PyStr := List Char

/-- Decimal digit character for a value below ten (values ten or larger
collapse onto the last pattern; all uses keep the argument below ten). -/
def digitChar : Nat → Char
  | 0 => '0' | 1 => '1' | 2 => '2' | 3 => '3' | 4 => '4'
  | 5 => '5' | 6 => '6' | 7 => '7' | 8 => '8' | _ => '9'

/-- Fuel-bounded decimal printer; the fuel bounds the number of
divisions by ten, mirroring the terminating loop of Python's `str`. -/
def natDigitsAux : Nat → Nat → List Char
  | 0, _ => []
  | fuel + 1, n =>
    if n < 10 then [digitChar n]
    else natDigitsAux fuel (n / 10) ++ [digitChar (n % 10)]

/-- Decimal representation of a natural number, as Python's `str(n)`
produces it (no sign, no leading zeros, `"0"` for zero). -/
def natDigits (n : Nat) : List Char := natDigitsAux (n + 1) n

/-- Numeric value of a decimal digit character (Python `ord(c) - 48`). -/
def digitVal (c : Char) : Nat := c.toNat - 48

/-- Whether a character is a decimal digit. -/
def isDigit (c : Char) : Bool := 48 ≤ c.toNat && c.toNat ≤ 57

/-- Value of a digit string read left to right. -/
def parseNatCore (cs : List Char) : Nat :=
  cs.foldl (fun a c => a * 10 + digitVal c) 0

/-- Restricted model of Python's `int(s)`: accepts non-empty all-digit
strings (Python also tolerates signs, whitespace and underscores, which
the repository never feeds it). -/
def parseNat? (cs : List Char) : Option Nat :=
  if cs ≠ [] ∧ cs.all isDigit then some (parseNatCore cs) else none

theorem isDigit_digitChar (d : Nat) : isDigit (digitChar d) = true := by
  rcases d with _ | _ | _ | _ | _ | _ | _ | _ | _ | d <;>
    first
      | decide
      | (show isDigit '9' = true; decide)

theorem digitVal_digitChar {d : Nat} (h : d < 10) :
    digitVal (digitChar d) = d := by
  interval_cases d <;> decide

theorem digitChar_ne_zero {d : Nat} (h0 : d ≠ 0) : digitChar d ≠ '0' := by
  rcases d with _ | _ | _ | _ | _ | _ | _ | _ | _ | d <;>
    first
      | exact absurd rfl h0
      | decide
      | (show ('9' : Char) ≠ '0'; decide)

theorem mem_natDigitsAux_isDigit {fuel n : Nat} {c : Char}
    (h : c ∈ natDigitsAux fuel n) : isDigit c = true := by
  induction fuel generalizing n with
  | zero => simp [natDigitsAux] at h
  | succ fuel ih =>
    unfold natDigitsAux at h
    split at h
    · simp at h
      subst h
      exact isDigit_digitChar n
    · rcases List.mem_append.mp h with h' | h'
      · exact ih h'
      · simp at h'
        subst h'
        exact isDigit_digitChar (n % 10)

theorem natDigitsAux_ne_nil {fuel n : Nat} (h : 0 < fuel) :
    natDigitsAux fuel n ≠ [] := by
  cases fuel with
  | zero => omega
  | succ fuel =>
    unfold natDigitsAux
    split
    · simp
    · simp

theorem parseNatCore_append_digit (cs : List Char) (c : Char) :
    parseNatCore (cs ++ [c]) = parseNatCore cs * 10 + digitVal c := by
  simp [parseNatCore, List.foldl_append]

theorem parseNatCore_natDigitsAux {fuel n : Nat} (h : n < fuel) :
    parseNatCore (natDigitsAux fuel n) = n := by
  induction fuel generalizing n with
  | zero => omega
  | succ fuel ih =>
    unfold natDigitsAux
    split
    · next hlt =>
      simp [parseNatCore, digitVal_digitChar hlt]
    · next hge =>
      rw [parseNatCore_append_digit]
      have hd : n / 10 < fuel := by
        have : n / 10 < n := Nat.div_lt_self (by omega) (by omega)
        omega
      rw [ih hd, digitVal_digitChar (by omega)]
      omega

theorem head?_natDigitsAux_ne_zero {fuel n : Nat} (hn : n ≠ 0) (hf : n < fuel) :
    ∀ c, (natDigitsAux fuel n).head? = some c → c ≠ '0' := by
  induction fuel generalizing n with
  | zero => omega
  | succ fuel ih =>
    intro c h
    unfold natDigitsAux at h
    split at h
    · next hlt =>
      simp at h
      subst h
      exact digitChar_ne_zero hn
    · next hge =>
      have hdiv : n / 10 < fuel := by
        have : n / 10 < n := Nat.div_lt_self (by omega) (by omega)
        omega
      rcases hl : natDigitsAux fuel (n / 10) with _ | ⟨x, xs⟩
      · exact absurd hl (natDigitsAux_ne_nil (by omega))
      · rw [hl] at h
        simp at h
        subst h
        have := ih (n := n / 10) (by omega) hdiv x
        rw [hl] at this
        exact this rfl

theorem natDigits_ne_nil (n : Nat) : natDigits n ≠ [] :=
  natDigitsAux_ne_nil (by omega)

theorem mem_natDigits_isDigit {n : Nat} {c : Char} (h : c ∈ natDigits n) :
    isDigit c = true := mem_natDigitsAux_isDigit h

theorem not_mem_natDigits {n : Nat} {c : Char} (h : isDigit c = false) :
    c ∉ natDigits n := fun hc => by
  rw [mem_natDigits_isDigit hc] at h
  cases h

theorem parseNatCore_natDigits (n : Nat) : parseNatCore (natDigits n) = n :=
  parseNatCore_natDigitsAux (by omega)

theorem parseNat?_natDigits (n : Nat) : parseNat? (natDigits n) = some n := by
  rw [parseNat?]
  rw [if_pos ⟨natDigits_ne_nil n, List.all_eq_true.mpr fun c hc => mem_natDigits_isDigit hc⟩]
  rw [parseNatCore_natDigits]

/-- Python's `str.split(sep)` for a single-character separator. -/
def pySplit (sep : Char) (cs : PyStr) : List PyStr := cs.splitOn sep

theorem pySplit_of_not_mem {sep : Char} {xs : PyStr} (h : sep ∉ xs) :
    pySplit sep xs = [xs] := by
  rw [pySplit, List.splitOn]
  exact List.splitOnP_eq_single _ _ fun y hy hp => h (by rwa [eq_of_beq hp] at hy)

theorem pySplit_append_sep {sep : Char} {xs as : PyStr} (h : sep ∉ xs) :
    pySplit sep (xs ++ sep :: as) = xs :: pySplit sep as := by
  rw [pySplit, pySplit, List.splitOn, List.splitOn]
  exact List.splitOnP_first _ _
    (fun x hx hp => h (by rwa [eq_of_beq hp] at hx)) sep (by simp) as

/-- Restricted model of one dotted-quad component as `socket.inet_aton`
reads it: a non-empty decimal digit string valued below 256.  Python
treats a leading zero as octal; the model instead accepts only the
canonical spellings (the repository only ever feeds `inet_ntoa` output
or configured canonical addresses back in). -/
def parseOctet? (cs : PyStr) : Option Nat :=
  if cs ≠ [] ∧ cs.all isDigit ∧ (cs.head? = some '0' → cs = ['0']) then
    if parseNatCore cs < 256 then some (parseNatCore cs) else none
  else none

theorem parseOctet?_natDigits {o : Nat} (h : o < 256) :
    parseOctet? (natDigits o) = some o := by
  rw [parseOctet?]
  rw [if_pos, parseNatCore_natDigits, if_pos h]
  refine ⟨natDigits_ne_nil o, List.all_eq_true.mpr fun c hc => mem_natDigits_isDigit hc, ?_⟩
  intro hz
  by_cases h0 : o = 0
  · subst h0; rfl
  · exact absurd rfl (head?_natDigitsAux_ne_zero h0 (by omega) '0' hz)

/-- Model of `socket.inet_aton` restricted to dotted-quad input, fused
with the `struct.unpack("!I", ...)` the source applies right after it:
returns the address as a big-endian 32-bit integer. -/
def inet_aton (cs : PyStr) : Option Nat :=
  match (pySplit '.' cs).map parseOctet? with
  | [some a, some b, some c, some d] =>
    some (((a * 256 + b) * 256 + c) * 256 + d)
  | _ => none

/-- The dotted-quad string `socket.inet_ntoa` prints for byte values
`a`, `b`, `c`, `d`. -/
def quadStr (a b c d : Nat) : PyStr :=
  natDigits a ++ '.' :: (natDigits b ++ '.' :: (natDigits c ++ '.' :: natDigits d))

/-- Composition `socket.inet_ntoa(struct.pack("!I", n))` used by
`OpenMessage.unpack`. -/
def ntoaNum (n : Nat) : PyStr :=
  quadStr (n / 16777216 % 256) (n / 65536 % 256) (n / 256 % 256) (n % 256)

/-- Model of `socket.inet_ntoa` on a raw byte string: requires exactly four
bytes. -/
def inet_ntoaBytes : List Nat → Option PyStr
  | [a, b, c, d] => some (quadStr a b c d)
  | _ => none

/-- Big-endian byte decomposition of a 16-bit value
(`struct.pack("!H", n)`; callers guard `n < 65536`). -/
def u16be (n : Nat) : List Nat := [n / 256 % 256, n % 256]

/-- Big-endian byte decomposition of a 32-bit value
(`struct.pack("!I", n)`; callers guard `n < 4294967296`). -/
def u32be (n : Nat) : List Nat :=
  [n / 16777216 % 256, n / 65536 % 256, n / 256 % 256, n % 256]

theorem mem_quadStr {a b c d : Nat} {ch : Char} (h : ch ∈ quadStr a b c d) :
    isDigit ch = true ∨ ch = '.' := by
  rw [quadStr] at h
  simp only [List.mem_append, List.mem_cons] at h
  rcases h with h | h | h | h | h | h | h <;>
    first
      | exact Or.inl (mem_natDigits_isDigit h)
      | exact Or.inr h

theorem dot_not_mem_natDigits (n : Nat) : '.' ∉ natDigits n :=
  not_mem_natDigits (by decide)

theorem pySplit_quadStr (a b c d : Nat) :
    pySplit '.' (quadStr a b c d) =
      [natDigits a, natDigits b, natDigits c, natDigits d] := by
  rw [quadStr,
    pySplit_append_sep (dot_not_mem_natDigits a),
    pySplit_append_sep (dot_not_mem_natDigits b),
    pySplit_append_sep (dot_not_mem_natDigits c),
    pySplit_of_not_mem (dot_not_mem_natDigits d)]

theorem inet_aton_quadStr {a b c d : Nat}
    (ha : a < 256) (hb : b < 256) (hc : c < 256) (hd : d < 256) :
    inet_aton (quadStr a b c d) = some (((a * 256 + b) * 256 + c) * 256 + d) := by
  rw [inet_aton, pySplit_quadStr]
  simp only [List.map_cons, List.map_nil,
    parseOctet?_natDigits ha, parseOctet?_natDigits hb,
    parseOctet?_natDigits hc, parseOctet?_natDigits hd]

theorem ntoaNum_of_bytes {a b c d : Nat}
    (ha : a < 256) (hb : b < 256) (hc : c < 256) (hd : d < 256) :
    ntoaNum (((a * 256 + b) * 256 + c) * 256 + d) = quadStr a b c d := by
  rw [ntoaNum]
  have h1 : (((a * 256 + b) * 256 + c) * 256 + d) / 16777216 % 256 = a := by omega
  have h2 : (((a * 256 + b) * 256 + c) * 256 + d) / 65536 % 256 = b := by omega
  have h3 : (((a * 256 + b) * 256 + c) * 256 + d) / 256 % 256 = c := by omega
  have h4 : (((a * 256 + b) * 256 + c) * 256 + d) % 256 = d := by omega
  rw [h1, h2, h3, h4]

theorem u32be_of_bytes {a b c d : Nat}
    (ha : a < 256) (hb : b < 256) (hc : c < 256) (hd : d < 256) :
    u32be (((a * 256 + b) * 256 + c) * 256 + d) = [a, b, c, d] := by
  rw [u32be]
  have h1 : (((a * 256 + b) * 256 + c) * 256 + d) / 16777216 % 256 = a := by omega
  have h2 : (((a * 256 + b) * 256 + c) * 256 + d) / 65536 % 256 = b := by omega
  have h3 : (((a * 256 + b) * 256 + c) * 256 + d) / 256 % 256 = c := by omega
  have h4 : (((a * 256 + b) * 256 + c) * 256 + d) % 256 = d := by omega
  rw [h1, h2, h3, h4]

theorem inet_aton_ntoaNum {n : Nat} (h : n < 4294967296) :
    inet_aton (ntoaNum n) = some n := by
  rw [ntoaNum, inet_aton_quadStr (by omega) (by omega) (by omega) (by omega)]
  congr 1
  omega

theorem inet_ntoaBytes_u32be (n : Nat) :
    inet_ntoaBytes (u32be n) = some (ntoaNum n) := by
  rw [u32be, inet_ntoaBytes, ntoaNum]

theorem u16be_val {n : Nat} (h : n < 65536) :
    256 * (u16be n).headI + (u16be n).tail.headI = n := by
  simp [u16be]
  omega

/-! Wire codec (`src/protocol.py`) -/

/-- BGP message type code for OPEN. -/
def OPEN : Nat := 1
/-- BGP message type code for UPDATE. -/
def UPDATE : Nat := 2
/-- BGP message type code for NOTIFICATION. -/
def NOTIFICATION : Nat := 3
/-- BGP message type code for KEEPALIVE. -/
def KEEPALIVE : Nat := 4

/-- The `BGPHeader` dataclass. -/
structure BGPHeader where
  marker : List Nat
  length : Nat
  type : Nat
deriving DecidableEq

/-- Model of `BGPHeader.pack`: sixteen 0xFF marker bytes, big-endian total length
(19 plus the payload), one type byte (`struct.pack("!16sHB", ...)`; all
callers keep the length below 65536 and the type below 256). -/
def BGPHeader.pack (msg_type : Nat) (payload : List Nat) : List Nat :=
  List.replicate 16 255 ++ u16be (19 + payload.length) ++ [msg_type] ++ payload

/-- Model of `BGPHeader.unpack`: fails (raises) on fewer than 19 bytes, then on a
marker that is not sixteen 0xFF bytes; otherwise returns the header and
the payload slice `data[19:length]`. -/
def BGPHeader.unpack (data : List Nat) : Option (BGPHeader × List Nat) :=
  if data.length < 19 then none
  else
    if data.take 16 ≠ List.replicate 16 255 then none
    else
      some (⟨data.take 16, 256 * data.getD 16 0 + data.getD 17 0, data.getD 18 0⟩,
        (data.drop 19).take (256 * data.getD 16 0 + data.getD 17 0 - 19))

/-- The `OpenMessage` dataclass (body fields of an OPEN message). -/
structure OpenMessage where
  version : Nat
  my_as : Nat
  hold_time : Nat
  bgp_identifier : PyStr
  opt_params : List Nat
deriving DecidableEq

/-- Model of `OpenMessage.pack`: `struct.pack("!BHHIB", ...)` plus the optional
parameters, wrapped in a header of type OPEN.  `none` models the
exceptions of `inet_aton` on a malformed identifier and of
`struct.pack` on out-of-range fields. -/
def OpenMessage.pack (m : OpenMessage) : Option (List Nat) :=
  match inet_aton m.bgp_identifier with
  | none => none
  | some bgp_id_int =>
    if m.version < 256 ∧ m.my_as < 65536 ∧ m.hold_time < 65536 ∧
        m.opt_params.length < 256 then
      some (BGPHeader.pack OPEN
        ([m.version] ++ u16be m.my_as ++ u16be m.hold_time ++ u32be bgp_id_int
          ++ [m.opt_params.length] ++ m.opt_params))
    else none

/-- Model of `OpenMessage.unpack`: reads the ten fixed bytes (failing on a
shorter payload as `struct.unpack` does), renders the identifier with
`inet_ntoa`, and slices `data[10 : 10 + opt_len]`. -/
def OpenMessage.unpack (data : List Nat) : Option OpenMessage :=
  match data with
  | v :: a1 :: a2 :: h1 :: h2 :: i1 :: i2 :: i3 :: i4 :: olen :: rest =>
    some ⟨v, a1 * 256 + a2, h1 * 256 + h2,
      ntoaNum (((i1 * 256 + i2) * 256 + i3) * 256 + i4), rest.take olen⟩
  | _ => none

/-- Model of `UpdateMessage.encode_origin`: flag 0x40, type 1, length 1, one
origin byte (callers pass an in-range origin code). -/
def encode_origin (origin : Nat) : List Nat := [64, 1, 1] ++ [origin]

/-- Model of `UpdateMessage.encode_as_path`: a single AS_SEQUENCE segment of
2-byte ASNs; `none` models the `struct.pack` range errors. -/
def encode_as_path (asn_list : List Nat) : Option (List Nat) :=
  if asn_list = [] then some [64, 2, 0]
  else
    if asn_list.all (fun a => a < 65536) ∧ asn_list.length < 256 then
      if ([2, asn_list.length] ++ (asn_list.map u16be).flatten).length < 256 then
        some ([64, 2, ([2, asn_list.length] ++ (asn_list.map u16be).flatten).length]
          ++ [2, asn_list.length] ++ (asn_list.map u16be).flatten)
      else none
    else none

/-- Model of `UpdateMessage.encode_next_hop`: flag 0x40, type 3, length 4, then
the four address bytes. -/
def encode_next_hop (next_hop_ip : PyStr) : Option (List Nat) :=
  (inet_aton next_hop_ip).map (fun n => [64, 3, 4] ++ u32be n)

/-- One prefix of `UpdateMessage.encode_nlri`: split on "/", parse the
length and the address, emit the length byte and the `ceil(len/8)`
leading address bytes. -/
def encodeNlriOne (cidr : PyStr) : Option (List Nat) :=
  match pySplit '/' cidr with
  | [ip_str, length_str] =>
    match parseNat? length_str, inet_aton ip_str with
    | some len, some ip_int =>
      if len < 256 then some (len :: (u32be ip_int).take ((len + 7) / 8))
      else none
    | _, _ => none
  | _ => none

/-- Model of `UpdateMessage.encode_nlri` over a list of prefix strings. -/
def encode_nlri : List PyStr → Option (List Nat)
  | [] => some []
  | p :: ps =>
    match encodeNlriOne p, encode_nlri ps with
    | some b, some bs => some (b ++ bs)
    | _, _ => none

/-- Fuel-bounded NLRI decoding, the loop at the top of
`handle_update_msg`: read a length byte, take `ceil(len/8)` bytes,
zero-pad to four, render with `inet_ntoa` and append "/len".  Each
iteration consumes at least one byte, so fuel equal to the byte count
always suffices; `none` models `inet_ntoa` raising when the padded
prefix is longer than four bytes. -/
def decodeNlriAux : Nat → List Nat → Option (List PyStr)
  | _, [] => some []
  | 0, _ :: _ => none
  | fuel + 1, len :: rest =>
    match inet_ntoaBytes (rest.take ((len + 7) / 8) ++
        List.replicate (4 - (rest.take ((len + 7) / 8)).length) 0) with
    | none => none
    | some ip_str =>
      match decodeNlriAux fuel (rest.drop ((len + 7) / 8)) with
      | none => none
      | some tail => some ((ip_str ++ '/' :: natDigits len) :: tail)

/-- The NLRI-decoding loop of `handle_update_msg`. -/
def decode_nlri (data : List Nat) : Option (List PyStr) :=
  decodeNlriAux data.length data

/-- Fuel-bounded path-attribute scan of `handle_update_msg`: walk the
TLV stream (2-byte length iff flag 0x10), remembering the value of the
last NEXT_HOP (type 3).  `none` models the IndexError / `struct.unpack`
errors on a truncated stream and `inet_ntoa` raising on a NEXT_HOP
value that is not four bytes.  Each iteration consumes at least two
bytes, so fuel equal to the byte count suffices. -/
def scanAttrsAux : Nat → List Nat → PyStr → Option PyStr
  | _, [], nh => some nh
  | 0, _ :: _, _ => none
  | _ + 1, [_], _ => none
  | fuel + 1, flags :: type_code :: rest, nh =>
    if flags.land 16 ≠ 0 then
      match rest with
      | l1 :: l2 :: rest2 =>
        if type_code = 3 then
          match inet_ntoaBytes (rest2.take (l1 * 256 + l2)) with
          | none => none
          | some nh2 => scanAttrsAux fuel (rest2.drop (l1 * 256 + l2)) nh2
        else scanAttrsAux fuel (rest2.drop (l1 * 256 + l2)) nh
      | _ => none
    else
      match rest with
      | l1 :: rest2 =>
        if type_code = 3 then
          match inet_ntoaBytes (rest2.take l1) with
          | none => none
          | some nh2 => scanAttrsAux fuel (rest2.drop l1) nh2
        else scanAttrsAux fuel (rest2.drop l1) nh
      | [] => none

/-- The path-attribute scan of `handle_update_msg` (the caller starts
it with `next_hop = "Unknown"`). -/
def scan_attrs (pa : List Nat) (nh : PyStr) : Option PyStr :=
  scanAttrsAux pa.length pa nh

/-- Companion of the attribute scan that records the visited attribute
type codes, walking the TLV stream exactly as `scan_attrs` does; used
to state "the block contains no NEXT_HOP attribute". -/
def scanTypesAux : Nat → List Nat → Option (List Nat)
  | _, [] => some []
  | 0, _ :: _ => none
  | _ + 1, [_] => none
  | fuel + 1, flags :: type_code :: rest =>
    if flags.land 16 ≠ 0 then
      match rest with
      | l1 :: l2 :: rest2 =>
        (scanTypesAux fuel (rest2.drop (l1 * 256 + l2))).map (type_code :: ·)
      | _ => none
    else
      match rest with
      | l1 :: rest2 => (scanTypesAux fuel (rest2.drop l1)).map (type_code :: ·)
      | [] => none

/-- The attribute type codes a path-attribute block presents to the
scan of `handle_update_msg`. -/
def scan_types (pa : List Nat) : Option (List Nat) :=
  scanTypesAux pa.length pa

/-! FSM states (`src/fsm.py`) and routes (`src/rib.py`) -/

/-- The `BGPState` enumeration. -/
inductive BGPState
  | IDLE
  | CONNECT
  | ACTIVE
  | OPEN_SENT
  | OPEN_CONFIRM
  | ESTABLISHED
deriving DecidableEq

/-- The `Route` dataclass.  The source field `prefix` is a Lean keyword
and is rendered here as `pfx`. -/
structure Route where
  pfx : PyStr
  next_hop : PyStr
  as_path : List Nat
  origin : PyStr
deriving DecidableEq

/-! Sessions (`src/session.py`)

The session is modelled at message granularity: parsed messages come
in, and the messages a step writes to the peer are collected in an
emission list.  The asyncio stream writer is modelled by two booleans
(attached, closed), the two timer tasks by "armed" booleans (cancelling
a task disarms it), and the hold-reset `asyncio.Event` by a boolean. -/

/-- A parsed BGP message as `process_message` receives it
(`OpenMessage` carries its body fields, `UpdateMessage` its three raw
byte strings). -/
inductive Msg
  | openMsg (version my_as hold_time : Nat) (bgp_identifier : PyStr)
      (opt_params : List Nat)
  | keepaliveMsg
  | notificationMsg (error_code error_subcode : Nat) (data : List Nat)
  | updateMsg (withdrawn_routes path_attributes nlri : List Nat)
deriving DecidableEq

/-- The mutable state of a `BGPSession` object. -/
structure Session where
  state : BGPState
  my_as : Nat
  bgp_id : PyStr
  peer_ip : PyStr
  hold_time : Nat
  originated_prefixes : List PyStr
  negotiated_hold_time : Nat
  writerAttached : Bool
  writerClosed : Bool
  keepaliveTimerArmed : Bool
  holdTimerArmed : Bool
  holdResetEvent : Bool
  msgs_sent : Nat
  msgs_received : Nat
  start_time : Option Nat
  remote_as : Option Nat
  adj_rib_in : List Route
deriving DecidableEq

/-- Model of `BGPSession.__init__`. -/
def BGPSession.init (my_as : Nat) (bgp_id peer_ip : PyStr) (hold_time : Nat)
    (originated_prefixes : List PyStr) : Session :=
  { state := BGPState.IDLE
    my_as := my_as
    bgp_id := bgp_id
    peer_ip := peer_ip
    hold_time := hold_time
    originated_prefixes := originated_prefixes
    negotiated_hold_time := 0
    writerAttached := false
    writerClosed := false
    keepaliveTimerArmed := false
    holdTimerArmed := false
    holdResetEvent := false
    msgs_sent := 0
    msgs_received := 0
    start_time := none
    remote_as := none
    adj_rib_in := [] }

/-- Model of `BGPSession.send_message`: writes (emits) the message and counts it
only when a writer is attached. -/
def send_message (s : Session) (m : Msg) : Session × List Msg :=
  if s.writerAttached then ({ s with msgs_sent := s.msgs_sent + 1 }, [m])
  else (s, [])

/-- Model of `BGPSession.send_update`: nothing to do without originated
prefixes; otherwise build ORIGIN/AS_PATH/NEXT_HOP attributes and the
NLRI and send one UPDATE.  `none` models the encoding helpers raising
(malformed identifier or prefix, out-of-range ASN). -/
def send_update (s : Session) : Option (Session × List Msg) :=
  if s.originated_prefixes = [] then some (s, [])
  else
    match encode_as_path [s.my_as], encode_next_hop s.bgp_id,
        encode_nlri s.originated_prefixes with
    | some ap, some nh, some nl =>
      some (send_message s (Msg.updateMsg [] (encode_origin 0 ++ ap ++ nh) nl))
    | _, _, _ => none

/-- Model of `BGPSession.close_connection`: everything (closing the stream,
cancelling both timers, moving to IDLE) happens only when a writer is
attached. -/
def close_connection (s : Session) : Session :=
  if s.writerAttached then
    { s with writerClosed := true
             keepaliveTimerArmed := false
             holdTimerArmed := false
             state := BGPState.IDLE }
  else s

/-- Model of `BGPSession.send_notification`: send the NOTIFICATION, then close
the connection. -/
def send_notification (s : Session) (error_code error_subcode : Nat)
    (data : List Nat) : Session × List Msg :=
  match send_message s (Msg.notificationMsg error_code error_subcode data) with
  | (s1, out) => (close_connection s1, out)

/-- Model of `BGPSession.handle_update_msg`: decode the NLRI, scan the path
attributes for a NEXT_HOP (default `"Unknown"`), and append one
`Route(prefix, next_hop, as_path=[], origin="IGP")` per decoded prefix
to `adj_rib_in`.  `none` models the exceptions of either loop. -/
def handle_update_msg (s : Session) (path_attributes nlri : List Nat) :
    Option Session :=
  match decode_nlri nlri with
  | none => none
  | some ps =>
    match scan_attrs path_attributes (("Unknown").toList) with
    | none => none
    | some nh =>
      some { s with adj_rib_in :=
        s.adj_rib_in ++ ps.map (fun p => ⟨p, nh, [], ("IGP").toList⟩) }

/-- The OPEN_SENT × OpenMessage branch of `process_message`: negotiate
the hold time as `min(local, peer)`, record the peer's AS, send one
KEEPALIVE, move to OPEN_CONFIRM, and start both timer tasks only when
the negotiated hold time is positive. -/
def open_in_open_sent (s1 : Session) (a h : Nat) : Session × List Msg :=
  let s2 : Session := { s1 with
    negotiated_hold_time := if h < s1.hold_time then h else s1.hold_time
    remote_as := some a }
  let r : Session × List Msg := send_message s2 Msg.keepaliveMsg
  let s4 : Session := { r.1 with state := BGPState.OPEN_CONFIRM }
  if s4.negotiated_hold_time > 0 then
    ({ s4 with keepaliveTimerArmed := true, holdTimerArmed := true }, r.2)
  else (s4, r.2)

/-- Model of `BGPSession.process_message`: count the message, signal the
hold-timer reset event, then dispatch on the current state and the
message variant exactly as the source's if/elif ladder does.  Returns
the updated session and the messages written to the peer; `none`
models an exception escaping (which in the source tears the session
down via the read loop). -/
def process_message (s : Session) (m : Msg) : Option (Session × List Msg) :=
  let s1 := { s with msgs_received := s.msgs_received + 1, holdResetEvent := true }
  match s1.state, m with
  | BGPState.OPEN_SENT, Msg.openMsg _ a h _ _ => some (open_in_open_sent s1 a h)
  | BGPState.OPEN_SENT, Msg.notificationMsg _ _ _ => some (close_connection s1, [])
  | BGPState.OPEN_SENT, Msg.keepaliveMsg => some (send_notification s1 5 1 [])
  | BGPState.OPEN_SENT, Msg.updateMsg _ _ _ => some (send_notification s1 5 1 [])
  | BGPState.OPEN_CONFIRM, Msg.keepaliveMsg =>
    send_update { s1 with state := BGPState.ESTABLISHED }
  | BGPState.OPEN_CONFIRM, Msg.notificationMsg _ _ _ =>
    some (close_connection s1, [])
  | BGPState.OPEN_CONFIRM, Msg.openMsg _ _ _ _ _ => some (send_notification s1 5 1 [])
  | BGPState.OPEN_CONFIRM, Msg.updateMsg _ _ _ => some (s1, [])
  | BGPState.ESTABLISHED, Msg.updateMsg _ pa nl =>
    (handle_update_msg s1 pa nl).map (fun s2 => (s2, []))
  | BGPState.ESTABLISHED, Msg.keepaliveMsg => some (s1, [])
  | BGPState.ESTABLISHED, Msg.notificationMsg _ _ _ =>
    some (close_connection s1, [])
  | BGPState.ESTABLISHED, Msg.openMsg _ _ _ _ _ => some (s1, [])
  | _, _ => some (s1, [])

/-- Model of `BGPSession.connection_made` up to the start of the read loop:
attach the stream, record the start time, force OPEN_SENT and send the
OPEN (`send_open` builds it with version 4 and empty optional
parameters).  Modelled at message level; the `OpenMessage.pack`
exception on a malformed local identifier (which in the source would
keep the read loop from ever starting) is not modelled, so the model's
reachable states form a superset of the source's. -/
def connection_made (s : Session) (now : Nat) : Session × List Msg :=
  let s1 := { s with writerAttached := true
                     writerClosed := false
                     start_time := some now
                     state := BGPState.OPEN_SENT }
  send_message s1 (Msg.openMsg 4 s1.my_as s1.hold_time s1.bgp_id [])

/-- Session states reachable through the source's entry points: fresh
construction, a single `connection_made` on a fresh object (the server
constructs a new `BGPSession` per TCP association), processing a parsed
message, and `close_connection` (called from any error path). -/
inductive Reachable : Session → Prop
  | init (my_as : Nat) (bgp_id peer_ip : PyStr) (hold_time : Nat)
      (originated_prefixes : List PyStr) :
      Reachable (BGPSession.init my_as bgp_id peer_ip hold_time originated_prefixes)
  | connect {s : Session} (now : Nat) (hs : Reachable s)
      (hw : s.writerAttached = false) :
      Reachable (connection_made s now).1
  | recv {s s' : Session} {m : Msg} {out : List Msg} (hs : Reachable s)
      (hp : process_message s m = some (s', out)) : Reachable s'
  | closed {s : Session} (hs : Reachable s) : Reachable (close_connection s)

/-! Management endpoint (`src/mgmt.py`, `show_neighbors`) -/

/-- Model of `BGPState.name` as the `Enum` member name string. -/
def stateName : BGPState → PyStr
  | BGPState.IDLE => ("IDLE").toList
  | BGPState.CONNECT => ("CONNECT").toList
  | BGPState.ACTIVE => ("ACTIVE").toList
  | BGPState.OPEN_SENT => ("OPEN_SENT").toList
  | BGPState.OPEN_CONFIRM => ("OPEN_CONFIRM").toList
  | BGPState.ESTABLISHED => ("ESTABLISHED").toList

/-- Python's `"%02d"`-style two-digit zero padding used inside
`str(timedelta)` for minutes and seconds. -/
def pad2 (n : Nat) : PyStr :=
  if n < 10 then '0' :: natDigits n else natDigits n

/-- Python's `"%06d"` zero padding used inside `str(timedelta)` for the
microsecond part. -/
def pad6 (n : Nat) : PyStr :=
  List.replicate (6 - (natDigits n).length) '0' ++ natDigits n

/-- Model of `str(datetime.timedelta)` for a non-negative delta measured in
microseconds: an optional "D day(s), " prefix, then `H:MM:SS`, then
".ffffff" only when the microsecond part is non-zero. -/
def strTimedelta (usec : Nat) : PyStr :=
  (if usec / 1000000 / 86400 = 0 then []
   else natDigits (usec / 1000000 / 86400) ++
     (if usec / 1000000 / 86400 = 1 then (" day, ").toList else (" days, ").toList))
  ++ natDigits (usec / 1000000 / 3600 % 24)
  ++ ':' :: pad2 (usec / 1000000 / 60 % 60)
  ++ ':' :: pad2 (usec / 1000000 % 60)
  ++ (if usec % 1000000 = 0 then [] else '.' :: pad6 (usec % 1000000))

/-- Python's `s.split(".")[0]`: the part of the string before the first
dot. -/
def beforeDot (cs : PyStr) : PyStr := cs.takeWhile (fun c => c != '.')

/-- The `uptime` computation of the `show_neighbors` handler: "N/A"
unless a start time is recorded and the state is ESTABLISHED, else the
stringified wall-clock delta with the microseconds split off.  `now`
and `start_time` are wall-clock instants in microseconds. -/
def neighbor_uptime (s : Session) (now : Nat) : PyStr :=
  match s.start_time with
  | none => ("N/A").toList
  | some st =>
    if s.state = BGPState.ESTABLISHED then beforeDot (strTimedelta (now - st))
    else ("N/A").toList

/-- One row of the `show_neighbors` response. -/
structure NeighborRow where
  peer_ip : PyStr
  remote_as : Nat
  state : PyStr
  uptime : PyStr
  msgs_sent : Nat
  msgs_received : Nat
deriving DecidableEq

/-- The `show_neighbors` row the management handler assembles for one
session (the handler reports the local `bgp_id` in the `peer_ip` field
and `remote_as or 0`). -/
def show_neighbors_row (s : Session) (now : Nat) : NeighborRow :=
  { peer_ip := s.bgp_id
    remote_as := s.remote_as.getD 0
    state := stateName s.state
    uptime := neighbor_uptime s now
    msgs_sent := s.msgs_sent
    msgs_received := s.msgs_received }

/-- Modelled from the spec's words: a delta of `usec` microseconds
"formatted as `H:MM:SS` with no fractional seconds", with unbounded
hours.  Used to compare the claimed format against the code's. -/
def specHMMSS (usec : Nat) : PyStr :=
  natDigits (usec / 1000000 / 3600)
  ++ ':' :: pad2 (usec / 1000000 / 60 % 60)
  ++ ':' :: pad2 (usec / 1000000 % 60)

/-! Structural invariant of reachable sessions -/

/-- Invariant of reachable sessions: before a stream is attached the
session is untouched (IDLE and no start time); timer tasks exist only
in OPEN_CONFIRM or ESTABLISHED; the simplified speaker never enters
CONNECT or ACTIVE. -/
structure Inv (s : Session) : Prop where
  started : s.state ≠ BGPState.IDLE → s.writerAttached = true ∧ s.start_time ≠ none
  timers : s.keepaliveTimerArmed = true ∨ s.holdTimerArmed = true →
    s.state = BGPState.OPEN_CONFIRM ∨ s.state = BGPState.ESTABLISHED
  no_connect : s.state ≠ BGPState.CONNECT ∧ s.state ≠ BGPState.ACTIVE

theorem inv_transfer {s s' : Session} (h : Inv s)
    (h1 : s'.state = s.state) (h2 : s'.writerAttached = s.writerAttached)
    (h3 : s'.start_time = s.start_time)
    (h4 : s'.keepaliveTimerArmed = s.keepaliveTimerArmed)
    (h5 : s'.holdTimerArmed = s.holdTimerArmed) : Inv s' := by
  constructor
  · rw [h1, h2, h3]; exact h.started
  · rw [h4, h5, h1]; exact h.timers
  · rw [h1]; exact h.no_connect

theorem inv_close {s : Session} (h : Inv s) : Inv (close_connection s) := by
  rw [close_connection]
  split
  · exact ⟨fun hne => absurd rfl hne, by simp, by simp⟩
  · exact h

theorem send_message_fst_fields (s : Session) (m : Msg) :
    (send_message s m).1.state = s.state ∧
    (send_message s m).1.writerAttached = s.writerAttached ∧
    (send_message s m).1.start_time = s.start_time ∧
    (send_message s m).1.keepaliveTimerArmed = s.keepaliveTimerArmed ∧
    (send_message s m).1.holdTimerArmed = s.holdTimerArmed := by
  rw [send_message]
  split <;> simp

theorem inv_send_message {s : Session} (h : Inv s) (m : Msg) :
    Inv (send_message s m).1 := by
  obtain ⟨h1, h2, h3, h4, h5⟩ := send_message_fst_fields s m
  exact inv_transfer h h1 h2 h3 h4 h5

theorem inv_send_notification {s : Session} (h : Inv s)
    (e1 e2 : Nat) (d : List Nat) : Inv (send_notification s e1 e2 d).1 := by
  rw [send_notification]
  exact inv_close (inv_send_message h _)

theorem send_update_fields {s s' : Session} {out : List Msg}
    (h : send_update s = some (s', out)) :
    s'.state = s.state ∧ s'.writerAttached = s.writerAttached ∧
    s'.start_time = s.start_time ∧
    s'.keepaliveTimerArmed = s.keepaliveTimerArmed ∧
    s'.holdTimerArmed = s.holdTimerArmed := by
  rw [send_update] at h
  split at h
  · simp only [Option.some.injEq, Prod.mk.injEq] at h
    rw [← h.1]
    exact ⟨rfl, rfl, rfl, rfl, rfl⟩
  · split at h
    · rename_i ap nhv nlv hap hnh hnl
      simp only [Option.some.injEq] at h
      have h2 : (send_message s (Msg.updateMsg []
          (encode_origin 0 ++ ap ++ nhv) nlv)).1 = s' := congrArg Prod.fst h
      rw [← h2]
      exact send_message_fst_fields s _
    · cases h

theorem handle_update_fields {s s2 : Session} {pa nl : List Nat}
    (h : handle_update_msg s pa nl = some s2) :
    s2.state = s.state ∧ s2.writerAttached = s.writerAttached ∧
    s2.start_time = s.start_time ∧
    s2.keepaliveTimerArmed = s.keepaliveTimerArmed ∧
    s2.holdTimerArmed = s.holdTimerArmed := by
  rw [handle_update_msg] at h
  split at h
  · cases h
  · split at h
    · cases h
    · simp only [Option.some.injEq] at h
      rw [← h]
      exact ⟨rfl, rfl, rfl, rfl, rfl⟩

/-- Explicit form of the OPEN_SENT × OPEN branch result. -/
theorem open_in_open_sent_eq (s1 : Session) (a h : Nat) :
    open_in_open_sent s1 a h =
      ({ s1 with
          state := BGPState.OPEN_CONFIRM
          negotiated_hold_time := if h < s1.hold_time then h else s1.hold_time
          remote_as := some a
          msgs_sent := if s1.writerAttached then s1.msgs_sent + 1 else s1.msgs_sent
          keepaliveTimerArmed :=
            if 0 < (if h < s1.hold_time then h else s1.hold_time) then true
            else s1.keepaliveTimerArmed
          holdTimerArmed :=
            if 0 < (if h < s1.hold_time then h else s1.hold_time) then true
            else s1.holdTimerArmed },
        if s1.writerAttached then [Msg.keepaliveMsg] else []) := by
  simp only [open_in_open_sent, send_message]
  by_cases hw : s1.writerAttached = true <;>
    by_cases hn : 0 < (if h < s1.hold_time then h else s1.hold_time) <;>
      simp [hw, hn]

theorem inv_open_in_open_sent (s1 : Session) (hw : s1.writerAttached = true)
    (hst : s1.start_time ≠ none) (a h : Nat) :
    Inv (open_in_open_sent s1 a h).1 := by
  rw [open_in_open_sent_eq]
  exact ⟨fun _ => ⟨hw, hst⟩, fun _ => Or.inl rfl, by simp, by simp⟩

/-- Every session state reachable through the modelled entry points
satisfies the invariant. -/
theorem reachable_inv {s : Session} (h : Reachable s) : Inv s := by
  induction h with
  | init my_as bgp_id peer_ip hold_time originated_prefixes =>
    refine ⟨fun h => absurd rfl h, fun h => ?_, by simp [BGPSession.init]⟩
    simp [BGPSession.init] at h
  | connect now hs hw ih =>
    rename_i s
    have hidle : s.state = BGPState.IDLE := by
      by_contra hne
      have h2 := (ih.started hne).1
      rw [hw] at h2
      cases h2
    have hk : s.keepaliveTimerArmed = false := by
      cases hb : s.keepaliveTimerArmed
      · rfl
      · rcases ih.timers (Or.inl hb) with h' | h' <;> rw [hidle] at h' <;> cases h'
    have hh : s.holdTimerArmed = false := by
      cases hb : s.holdTimerArmed
      · rfl
      · rcases ih.timers (Or.inr hb) with h' | h' <;> rw [hidle] at h' <;> cases h'
    constructor
    · intro _
      exact ⟨by simp [connection_made, send_message], by simp [connection_made, send_message]⟩
    · intro harm
      simp [connection_made, send_message, hk, hh] at harm
    · exact ⟨by simp [connection_made, send_message], by simp [connection_made, send_message]⟩
  | recv hs hp ih =>
    rename_i s s' m out
    rcases m with ⟨v, a, hmh, bid, opts⟩ | _ | ⟨e1, e2, d⟩ | ⟨w, pa, nl⟩ <;>
      rcases hstate : s.state with _ | _ | _ | _ | _ | _ <;>
      (rw [process_message.eq_def] at hp; simp only [hstate] at hp)
    case openMsg.OPEN_SENT =>
      have hwriter : s.writerAttached = true :=
        (ih.started (by rw [hstate]; simp)).1
      have hstart : s.start_time ≠ none :=
        (ih.started (by rw [hstate]; simp)).2
      have h1 := congrArg Prod.fst (Option.some.inj hp)
      dsimp only at h1
      rw [← h1]
      exact inv_open_in_open_sent
        { s with state := BGPState.OPEN_SENT
                 msgs_received := s.msgs_received + 1
                 holdResetEvent := true }
        hwriter hstart a hmh
    case openMsg.OPEN_CONFIRM =>
      have h1 := congrArg Prod.fst (Option.some.inj hp)
      dsimp only at h1
      rw [← h1]
      refine inv_send_notification (inv_transfer ih ?_ ?_ ?_ ?_ ?_) 5 1 []
      · rw [hstate]
      · rfl
      · rfl
      · rfl
      · rfl
    case keepaliveMsg.OPEN_SENT =>
      have h1 := congrArg Prod.fst (Option.some.inj hp)
      dsimp only at h1
      rw [← h1]
      refine inv_send_notification (inv_transfer ih ?_ ?_ ?_ ?_ ?_) 5 1 []
      · rw [hstate]
      · rfl
      · rfl
      · rfl
      · rfl
    case keepaliveMsg.OPEN_CONFIRM =>
      have hwriter : s.writerAttached = true :=
        (ih.started (by rw [hstate]; simp)).1
      have hstart : s.start_time ≠ none :=
        (ih.started (by rw [hstate]; simp)).2
      obtain ⟨f1, f2, f3, f4, f5⟩ := send_update_fields hp
      refine ⟨fun _ => ⟨by rw [f2]; exact hwriter, by rw [f3]; exact hstart⟩,
        fun _ => by rw [f1]; exact Or.inr rfl, by rw [f1]; simp⟩
    case notificationMsg.OPEN_SENT =>
      have h1 := congrArg Prod.fst (Option.some.inj hp)
      dsimp only at h1
      rw [← h1]
      refine inv_close (inv_transfer ih ?_ ?_ ?_ ?_ ?_)
      · rw [hstate]
      · rfl
      · rfl
      · rfl
      · rfl
    case notificationMsg.OPEN_CONFIRM =>
      have h1 := congrArg Prod.fst (Option.some.inj hp)
      dsimp only at h1
      rw [← h1]
      refine inv_close (inv_transfer ih ?_ ?_ ?_ ?_ ?_)
      · rw [hstate]
      · rfl
      · rfl
      · rfl
      · rfl
    case notificationMsg.ESTABLISHED =>
      have h1 := congrArg Prod.fst (Option.some.inj hp)
      dsimp only at h1
      rw [← h1]
      refine inv_close (inv_transfer ih ?_ ?_ ?_ ?_ ?_)
      · rw [hstate]
      · rfl
      · rfl
      · rfl
      · rfl
    case updateMsg.OPEN_SENT =>
      have h1 := congrArg Prod.fst (Option.some.inj hp)
      dsimp only at h1
      rw [← h1]
      refine inv_send_notification (inv_transfer ih ?_ ?_ ?_ ?_ ?_) 5 1 []
      · rw [hstate]
      · rfl
      · rfl
      · rfl
      · rfl
    case updateMsg.ESTABLISHED =>
      have hwriter : s.writerAttached = true :=
        (ih.started (by rw [hstate]; simp)).1
      have hstart : s.start_time ≠ none :=
        (ih.started (by rw [hstate]; simp)).2
      rw [Option.map_eq_some'] at hp
      obtain ⟨s2, hh2, hpair⟩ := hp
      obtain ⟨f1, f2, f3, f4, f5⟩ := handle_update_fields hh2
      have hs2 : s2 = s' := congrArg Prod.fst hpair
      rw [← hs2]
      refine ⟨fun _ => ⟨by rw [f2]; exact hwriter, by rw [f3]; exact hstart⟩,
        fun _ => by rw [f1]; exact Or.inr rfl, by rw [f1]; simp⟩
    all_goals
      · have h1 := congrArg Prod.fst (Option.some.inj hp)
        dsimp only at h1
        rw [← h1]
        exact inv_transfer ih (by rw [hstate]) rfl rfl rfl rfl
  | closed hs ih => exact inv_close ih

/-! NLRI round trip -/

/-- The canonical string form of an IPv4 CIDR: the `inet_ntoa`
rendering of the address followed by "/len". -/
def cidrStr (ip len : Nat) : PyStr := ntoaNum ip ++ '/' :: natDigits len

theorem slash_not_mem_ntoaNum (ip : Nat) : '/' ∉ ntoaNum ip := by
  intro h
  rcases mem_quadStr h with h' | h'
  · cases h'
  · cases h'

theorem encodeNlriOne_cidr {ip len : Nat} (hip : ip < 4294967296)
    (hlen : len ≤ 32) :
    encodeNlriOne (cidrStr ip len) =
      some (len :: (u32be ip).take ((len + 7) / 8)) := by
  rw [encodeNlriOne, cidrStr,
    pySplit_append_sep (slash_not_mem_ntoaNum ip),
    pySplit_of_not_mem (not_mem_natDigits (by decide))]
  simp only [parseNat?_natDigits, inet_aton_ntoaNum hip]
  rw [if_pos (show len < 256 by omega)]

theorem take_u32be_pad {ip len : Nat} (hip : ip < 4294967296)
    (hlen : len ≤ 32) (hcan : ip % 2 ^ (32 - len) = 0) :
    (u32be ip).take ((len + 7) / 8) ++
      List.replicate (4 - ((u32be ip).take ((len + 7) / 8)).length) 0 =
      u32be ip := by
  have hdvd : 2 ^ (32 - len) ∣ ip := Nat.dvd_of_mod_eq_zero hcan
  set nb := (len + 7) / 8 with hnbdef
  have hnb : nb ≤ 4 := by omega
  have hlt : ((u32be ip).take nb).length = nb := by
    simp [u32be]
    omega
  rw [hlt]
  interval_cases nb
  · have hlen0 : len = 0 := by omega
    subst hlen0
    have hip0 : ip = 0 := Nat.eq_zero_of_dvd_of_lt hdvd hip
    subst hip0
    decide
  · have hd : (2 : Nat) ^ 24 ∣ ip := dvd_trans (pow_dvd_pow 2 (by omega)) hdvd
    obtain ⟨t, rfl⟩ := hd
    simp [u32be] <;> omega
  · have hd : (2 : Nat) ^ 16 ∣ ip := dvd_trans (pow_dvd_pow 2 (by omega)) hdvd
    obtain ⟨t, rfl⟩ := hd
    simp [u32be] <;> omega
  · have hd : (2 : Nat) ^ 8 ∣ ip := dvd_trans (pow_dvd_pow 2 (by omega)) hdvd
    obtain ⟨t, rfl⟩ := hd
    simp [u32be] <;> omega
  · simp [u32be]

theorem decodeNlriAux_fuel {f f' : Nat} {l : List Nat}
    (h : l.length ≤ f) (h' : l.length ≤ f') :
    decodeNlriAux f l = decodeNlriAux f' l := by
  induction f generalizing f' l with
  | zero =>
    cases l with
    | nil => cases f' <;> rfl
    | cons a as => simp at h
  | succ f ih =>
    cases l with
    | nil => cases f' <;> rfl
    | cons len rest =>
      cases f' with
      | zero => simp at h'
      | succ f'' =>
        simp only [decodeNlriAux]
        have hlen1 : rest.length ≤ f := by simpa using h
        have hlen2 : rest.length ≤ f'' := by simpa using h'
        rw [@ih f'' (rest.drop ((len + 7) / 8))
          (by rw [List.length_drop]; omega)
          (by rw [List.length_drop]; omega)]

theorem decode_encode_cons {ip len : Nat} {bs : List Nat} {tail : List PyStr}
    (hip : ip < 4294967296) (hlen : len ≤ 32) (hcan : ip % 2 ^ (32 - len) = 0)
    (htail : decode_nlri bs = some tail) :
    decode_nlri ((len :: (u32be ip).take ((len + 7) / 8)) ++ bs) =
      some (cidrStr ip len :: tail) := by
  have hnb : (len + 7) / 8 ≤ 4 := by omega
  have hlt : ((u32be ip).take ((len + 7) / 8)).length = (len + 7) / 8 := by
    simp [u32be]
    omega
  rw [decode_nlri, List.cons_append, List.length_cons]
  simp only [decodeNlriAux]
  rw [List.take_left' hlt, List.drop_left' hlt, take_u32be_pad hip hlen hcan,
    inet_ntoaBytes_u32be]
  rw [@decodeNlriAux_fuel _ bs.length bs (by simp) (by omega)]
  rw [decode_nlri] at htail
  rw [htail]
  rfl

/-- Round trip of `encode_nlri` followed by the NLRI-decoding loop of
`handle_update_msg`, for lists of canonical CIDR strings. -/
theorem nlri_roundtrip {L : List PyStr}
    (h : ∀ p ∈ L, ∃ ip len, p = cidrStr ip len ∧ ip < 4294967296 ∧
      len ≤ 32 ∧ ip % 2 ^ (32 - len) = 0) :
    ∃ bs, encode_nlri L = some bs ∧ decode_nlri bs = some L := by
  induction L with
  | nil => exact ⟨[], rfl, rfl⟩
  | cons p ps ih =>
    obtain ⟨ip, len, rfl, hip, hlen, hcan⟩ := h p (by simp)
    obtain ⟨bs, hbs, hdec⟩ := ih fun q hq => h q (by simp [hq])
    refine ⟨(len :: (u32be ip).take ((len + 7) / 8)) ++ bs, ?_, ?_⟩
    · rw [encode_nlri, encodeNlriOne_cidr hip hlen, hbs]
    · exact decode_encode_cons hip hlen hcan hdec

/-! Header and OPEN round trips -/

theorem length_pack (t : Nat) (payload : List Nat) :
    (BGPHeader.pack t payload).length = 19 + payload.length := by
  simp [BGPHeader.pack, u16be]
  omega

theorem BGPHeader.unpack_pack (t : Nat) (payload : List Nat)
    (hlen : 19 + payload.length < 65536) :
    BGPHeader.unpack (BGPHeader.pack t payload) =
      some (⟨List.replicate 16 255, 19 + payload.length, t⟩, payload) := by
  have htake : (BGPHeader.pack t payload).take 16 = List.replicate 16 255 := by
    rw [BGPHeader.pack, List.append_assoc, List.append_assoc,
      List.take_left' (by simp)]
  have hg : ∀ k, (BGPHeader.pack t payload).getD (16 + k) 0 =
      (u16be (19 + payload.length) ++ [t] ++ payload).getD k 0 := by
    intro k
    rw [BGPHeader.pack, List.append_assoc, List.append_assoc,
      List.getD_append_right _ _ _ _ (by simp)]
    simp [List.append_assoc]
  have h16 : (BGPHeader.pack t payload).getD 16 0 =
      (19 + payload.length) / 256 % 256 := by
    have h0 := hg 0
    simpa [u16be] using h0
  have h17 : (BGPHeader.pack t payload).getD 17 0 =
      (19 + payload.length) % 256 := by
    have h1 := hg 1
    simpa [u16be] using h1
  have h18 : (BGPHeader.pack t payload).getD 18 0 = t := by
    have h2 := hg 2
    simpa [u16be] using h2
  have hL : 256 * ((19 + payload.length) / 256 % 256) +
      (19 + payload.length) % 256 = 19 + payload.length := by omega
  have hdrop : (BGPHeader.pack t payload).drop 19 = payload := by
    have hre : BGPHeader.pack t payload =
        (List.replicate 16 255 ++ u16be (19 + payload.length) ++ [t]) ++ payload := by
      simp [BGPHeader.pack]
    rw [hre, List.drop_left' (by simp [u16be])]
  rw [BGPHeader.unpack, if_neg (by rw [length_pack]; omega),
    if_neg (not_not_intro htake), htake, h16, h17, h18, hL, hdrop,
    Nat.add_sub_cancel_left, List.take_length]

/-- C3: packing an OPEN message whose version fits a byte, whose
`my_as` and `hold_time` fit sixteen bits and whose router id is a
canonical dotted quad, then unpacking the payload of the packed
message, returns an `OpenMessage` with the same version, `my_as`,
`hold_time` and `bgp_identifier` (and the same optional parameters). -/
theorem C3_open_pack_unpack_roundtrip
    (v a h o1 o2 o3 o4 : Nat) (opts : List Nat)
    (hv : v < 256) (ha : a < 65536) (hh : h < 65536)
    (h1 : o1 < 256) (h2 : o2 < 256) (h3 : o3 < 256) (h4 : o4 < 256)
    (ho : opts.length < 256) :
    ∃ packed hdr payload,
      (OpenMessage.mk v a h (quadStr o1 o2 o3 o4) opts).pack = some packed ∧
      BGPHeader.unpack packed = some (hdr, payload) ∧
      OpenMessage.unpack payload =
        some (OpenMessage.mk v a h (quadStr o1 o2 o3 o4) opts) := by
  have hV : ((o1 * 256 + o2) * 256 + o3) * 256 + o4 < 4294967296 := by omega
  refine ⟨BGPHeader.pack OPEN
      ([v] ++ u16be a ++ u16be h ++
        u32be (((o1 * 256 + o2) * 256 + o3) * 256 + o4) ++
        [opts.length] ++ opts),
    ⟨List.replicate 16 255, 19 + (10 + opts.length), OPEN⟩,
    [v] ++ u16be a ++ u16be h ++
      u32be (((o1 * 256 + o2) * 256 + o3) * 256 + o4) ++
      [opts.length] ++ opts, ?_, ?_, ?_⟩
  · rw [OpenMessage.pack]
    simp only [inet_aton_quadStr h1 h2 h3 h4]
    rw [if_pos ⟨hv, ha, hh, ho⟩]
  · have hplen : ([v] ++ u16be a ++ u16be h ++
        u32be (((o1 * 256 + o2) * 256 + o3) * 256 + o4) ++
        [opts.length] ++ opts).length = 10 + opts.length := by
      simp [u16be, u32be]
      omega
    rw [BGPHeader.unpack_pack _ _ (by rw [hplen]; omega), hplen]
  · rw [u32be_of_bytes h1 h2 h3 h4]
    simp only [u16be, List.cons_append, List.nil_append, List.append_assoc,
      OpenMessage.unpack, Option.some.injEq, OpenMessage.mk.injEq,
      List.take_length]
    exact ⟨trivial, by omega, by omega, ntoaNum_of_bytes h1 h2 h3 h4, trivial⟩

/-- C4: `BGPHeader.unpack` fails on every buffer shorter than 19 bytes,
fails on every buffer of at least 19 bytes whose first sixteen bytes
are not all 0xFF, and on every buffer of at least 19 bytes whose first
sixteen bytes are all 0xFF succeeds, returning the parsed
(marker, length, type) header and the payload slice `data[19:length]`. -/
theorem C4_header_unpack :
    (∀ data : List Nat, data.length < 19 → BGPHeader.unpack data = none) ∧
    (∀ data : List Nat, 19 ≤ data.length →
      data.take 16 ≠ List.replicate 16 255 → BGPHeader.unpack data = none) ∧
    (∀ data : List Nat, 19 ≤ data.length →
      data.take 16 = List.replicate 16 255 →
      BGPHeader.unpack data =
        some (⟨List.replicate 16 255,
            256 * data.getD 16 0 + data.getD 17 0, data.getD 18 0⟩,
          (data.take (256 * data.getD 16 0 + data.getD 17 0)).drop 19)) := by
  refine ⟨fun data hlt => ?_, fun data h1 h2 => ?_, fun data h1 h2 => ?_⟩
  · rw [BGPHeader.unpack, if_pos hlt]
  · rw [BGPHeader.unpack, if_neg (by omega), if_pos h2]
  · rw [BGPHeader.unpack, if_neg (by omega), if_neg (not_not_intro h2), h2,
      List.drop_take]

/-- Witness for C4 at concrete buffers. -/
theorem C4_header_unpack_witness :
    BGPHeader.unpack [255] = none ∧
    BGPHeader.unpack (List.replicate 19 0) = none ∧
    BGPHeader.unpack (List.replicate 16 255 ++ [0, 21, 4, 9, 8]) =
      some (⟨List.replicate 16 255, 21, 4⟩, [9, 8]) := by
  refine ⟨C4_header_unpack.1 [255] (by decide),
    C4_header_unpack.2.1 (List.replicate 19 0) (by decide) (by decide), ?_⟩
  have h := C4_header_unpack.2.2 (List.replicate 16 255 ++ [0, 21, 4, 9, 8])
    (by decide) (by decide)
  rw [h]
  decide

/-! Session-level claims -/

theorem unarmed_of_inv {s : Session} (inv : Inv s)
    (h1 : s.state ≠ BGPState.OPEN_CONFIRM)
    (h2 : s.state ≠ BGPState.ESTABLISHED) :
    s.keepaliveTimerArmed = false ∧ s.holdTimerArmed = false := by
  constructor
  · cases hb : s.keepaliveTimerArmed
    · rfl
    · rcases inv.timers (Or.inl hb) with h' | h'
      · exact absurd h' h1
      · exact absurd h' h2
  · cases hb : s.holdTimerArmed
    · rfl
    · rcases inv.timers (Or.inr hb) with h' | h'
      · exact absurd h' h1
      · exact absurd h' h2

theorem idle_of_no_writer {s : Session} (inv : Inv s)
    (hw : s.writerAttached = false) : s.state = BGPState.IDLE := by
  by_contra hne
  have h2 := (inv.started hne).1
  rw [hw] at h2
  cases h2

/-- C1: from OPEN_SENT, receiving an OPEN advertising hold time `h`
moves the session to OPEN_CONFIRM, sets the negotiated hold time to
`min(local, h)`, records the sender's AS as `remote_as`, emits exactly
one KEEPALIVE, and arms the KeepAlive and Hold timer tasks iff the
negotiated hold time is positive. -/
theorem C1_open_sent_open_transition {s : Session} (hr : Reachable s)
    (hs : s.state = BGPState.OPEN_SENT)
    (v a h : Nat) (bid : PyStr) (opts : List Nat) :
    ∃ s', process_message s (Msg.openMsg v a h bid opts) =
        some (s', [Msg.keepaliveMsg]) ∧
      s'.state = BGPState.OPEN_CONFIRM ∧
      s'.negotiated_hold_time = min s.hold_time h ∧
      s'.remote_as = some a ∧
      (s'.keepaliveTimerArmed = true ↔ 0 < s'.negotiated_hold_time) ∧
      (s'.holdTimerArmed = true ↔ 0 < s'.negotiated_hold_time) := by
  have inv := reachable_inv hr
  have hw : s.writerAttached = true := (inv.started (by rw [hs]; simp)).1
  obtain ⟨hk, hh⟩ := unarmed_of_inv inv (by rw [hs]; simp) (by rw [hs]; simp)
  have hmin : (if h < s.hold_time then h else s.hold_time) = min s.hold_time h := by
    split <;> omega
  have hstep : process_message s (Msg.openMsg v a h bid opts) =
      some (open_in_open_sent
        { s with msgs_received := s.msgs_received + 1, holdResetEvent := true } a h) := by
    rw [process_message.eq_def]
    simp only [hs]
  rw [open_in_open_sent_eq] at hstep
  simp only [hw, if_true] at hstep
  refine ⟨_, hstep, rfl, hmin, rfl, ?_, ?_⟩
  · by_cases hc : 0 < (if h < s.hold_time then h else s.hold_time)
    · simp [hc]
    · simp [hc, hk]
  · by_cases hc : 0 < (if h < s.hold_time then h else s.hold_time)
    · simp [hc]
    · simp [hc, hh]

/-- Session for the C1 witness: a freshly attached session (OPEN_SENT). -/
def c1s : Session :=
  (connection_made
    (BGPSession.init 65001 (("1.1.1.1").toList) (("2.2.2.2").toList) 180 []) 0).1

theorem c1s_reachable : Reachable c1s :=
  Reachable.connect 0 (Reachable.init 65001 (("1.1.1.1").toList)
    (("2.2.2.2").toList) 180 []) rfl

/-- Witness for C1 at a concrete reachable session and OPEN message. -/
theorem C1_open_sent_open_transition_witness :
    c1s.state = BGPState.OPEN_SENT ∧
    ∃ s', process_message c1s (Msg.openMsg 4 65002 90 [] []) =
        some (s', [Msg.keepaliveMsg]) ∧
      s'.state = BGPState.OPEN_CONFIRM ∧
      s'.negotiated_hold_time = min c1s.hold_time 90 ∧
      s'.remote_as = some 65002 ∧
      (s'.keepaliveTimerArmed = true ↔ 0 < s'.negotiated_hold_time) ∧
      (s'.holdTimerArmed = true ↔ 0 < s'.negotiated_hold_time) :=
  ⟨by decide, C1_open_sent_open_transition c1s_reachable (by decide) 4 65002 90 [] []⟩

/-- C7: on every reachable session, `close_connection` leaves the
session in IDLE with both timer tasks cancelled, closes the byte
stream when one is attached, and is idempotent (so the stream is
closed exactly once no matter how often close is reached). -/
theorem C7_close_connection {s : Session} (hr : Reachable s) :
    (close_connection s).state = BGPState.IDLE ∧
    (close_connection s).keepaliveTimerArmed = false ∧
    (close_connection s).holdTimerArmed = false ∧
    (s.writerAttached = true → (close_connection s).writerClosed = true) ∧
    close_connection (close_connection s) = close_connection s := by
  have inv := reachable_inv hr
  by_cases hw : s.writerAttached = true
  · simp [close_connection, hw]
  · have hw' : s.writerAttached = false := by
      cases hb : s.writerAttached
      · rfl
      · exact absurd hb hw
    have hidle := idle_of_no_writer inv hw'
    obtain ⟨hk, hh⟩ := unarmed_of_inv inv (by rw [hidle]; simp) (by rw [hidle]; simp)
    simp [close_connection, hw, hidle, hk, hh]

/-- Witness for C7 at a concrete reachable session with an attached
stream. -/
theorem C7_close_connection_witness :
    (close_connection c1s).state = BGPState.IDLE ∧
    (close_connection c1s).keepaliveTimerArmed = false ∧
    (close_connection c1s).holdTimerArmed = false ∧
    (c1s.writerAttached = true → (close_connection c1s).writerClosed = true) ∧
    close_connection (close_connection c1s) = close_connection c1s :=
  C7_close_connection c1s_reachable

/-- The example prefix list of the NLRI round-trip scenario. -/
def examplePrefixes : List PyStr :=
  [("192.168.0.0/22").toList, ("10.1.2.0/24").toList, ("0.0.0.0/0").toList]

/-- C2 counterexample: the example list encodes to the nine bytes
16 C0 A8 00 18 0A 01 02 00 (three prefix bytes for /22), not the ten
bytes 22 C0 A8 00 00 18 0A 01 02 00 the claim states; and the claimed
bytes do not decode back to the list either (read as hex, the first
length byte 0x22 = 34 makes the decoder fail; read with a decimal
first length byte, they decode to a different four-element list). -/
theorem C2_nlri_counterexample :
    encode_nlri examplePrefixes = some [22, 192, 168, 0, 24, 10, 1, 2, 0] ∧
    [22, 192, 168, 0, 24, 10, 1, 2, 0] ≠
      [34, 192, 168, 0, 0, 24, 10, 1, 2, 0] ∧
    [22, 192, 168, 0, 24, 10, 1, 2, 0] ≠
      [22, 192, 168, 0, 0, 24, 10, 1, 2, 0] ∧
    decode_nlri [34, 192, 168, 0, 0, 24, 10, 1, 2, 0] = none ∧
    decode_nlri [22, 192, 168, 0, 0, 24, 10, 1, 2, 0] =
      some [("192.168.0.0/22").toList, ("0.0.0.0/0").toList,
        ("10.1.2.0/24").toList, ("0.0.0.0/0").toList] := by
  decide

/-- C2 (amended): for every list of canonical IPv4 CIDR strings whose
prefix lengths lie in [0,32], decoding the encoding yields the list
again; the example list encodes to 16 C0 A8 00 18 0A 01 02 00 and those
bytes decode back to the example list. -/
theorem C2_nlri_roundtrip (L : List PyStr)
    (h : ∀ p ∈ L, ∃ ip len, p = cidrStr ip len ∧ ip < 4294967296 ∧
      len ≤ 32 ∧ ip % 2 ^ (32 - len) = 0) :
    (∃ bs, encode_nlri L = some bs ∧ decode_nlri bs = some L) ∧
    encode_nlri examplePrefixes = some [22, 192, 168, 0, 24, 10, 1, 2, 0] ∧
    decode_nlri [22, 192, 168, 0, 24, 10, 1, 2, 0] = some examplePrefixes :=
  ⟨nlri_roundtrip h, by decide, by decide⟩

/-- Witness for the amended C2 at the example list. -/
theorem C2_nlri_roundtrip_witness :
    (∃ bs, encode_nlri examplePrefixes = some bs ∧
      decode_nlri bs = some examplePrefixes) ∧
    encode_nlri examplePrefixes = some [22, 192, 168, 0, 24, 10, 1, 2, 0] ∧
    decode_nlri [22, 192, 168, 0, 24, 10, 1, 2, 0] = some examplePrefixes :=
  C2_nlri_roundtrip examplePrefixes (by
    intro p hp
    simp only [examplePrefixes, List.mem_cons, List.not_mem_nil, or_false] at hp
    rcases hp with rfl | rfl | rfl
    · exact ⟨3232235520, 22, by decide, by decide, by decide, by decide⟩
    · exact ⟨167838208, 24, by decide, by decide, by decide, by decide⟩
    · exact ⟨0, 0, by decide, by decide, by decide, by decide⟩)

/-- Witness for C3 at the test suite's OPEN message
(4, 65001, 180, "192.168.1.1"). -/
theorem C3_open_pack_unpack_roundtrip_witness :
    (4 : Nat) < 256 ∧ (65001 : Nat) < 65536 ∧ (180 : Nat) < 65536 ∧
    ∃ packed hdr payload,
      (OpenMessage.mk 4 65001 180 (quadStr 192 168 1 1) []).pack = some packed ∧
      BGPHeader.unpack packed = some (hdr, payload) ∧
      OpenMessage.unpack payload =
        some (OpenMessage.mk 4 65001 180 (quadStr 192 168 1 1) []) :=
  ⟨by decide, by decide, by decide,
    C3_open_pack_unpack_roundtrip 4 65001 180 192 168 1 1 [] (by decide)
      (by decide) (by decide) (by decide) (by decide) (by decide) (by decide)
      (by decide)⟩

theorem encode_as_path_single {x : Nat} (hx : x < 65536) :
    encode_as_path [x] = some [64, 2, 4, 2, 1, x / 256 % 256, x % 256] := by
  rw [encode_as_path]
  rw [if_neg (by simp)]
  rw [if_pos ⟨by simp [hx], by simp⟩]
  rw [if_pos (by simp [u16be])]
  simp [u16be]

/-- What `send_update` does on a session with a canonical identifier,
an in-range local AS and a non-empty list of canonical originated
prefixes: exactly one UPDATE carrying the encoded NLRI is written. -/
theorem send_update_spec {s : Session} (hw : s.writerAttached = true)
    {b1 b2 b3 b4 : Nat} (hb1 : b1 < 256) (hb2 : b2 < 256) (hb3 : b3 < 256)
    (hb4 : b4 < 256) (hid : s.bgp_id = quadStr b1 b2 b3 b4)
    (hasn : s.my_as < 65536)
    (hpre : ∀ p ∈ s.originated_prefixes, ∃ ip len, p = cidrStr ip len ∧
      ip < 4294967296 ∧ len ≤ 32 ∧ ip % 2 ^ (32 - len) = 0)
    (hne : s.originated_prefixes ≠ []) :
    ∃ pa nl, send_update s =
        some ({ s with msgs_sent := s.msgs_sent + 1 }, [Msg.updateMsg [] pa nl]) ∧
      encode_nlri s.originated_prefixes = some nl ∧
      decode_nlri nl = some s.originated_prefixes := by
  obtain ⟨nl, henc, hdec⟩ := nlri_roundtrip hpre
  refine ⟨encode_origin 0 ++
      [64, 2, 4, 2, 1, s.my_as / 256 % 256, s.my_as % 256] ++
      ([64, 3, 4] ++ u32be (((b1 * 256 + b2) * 256 + b3) * 256 + b4)),
    nl, ?_, henc, hdec⟩
  rw [send_update, if_neg hne, encode_as_path_single hasn, hid, encode_next_hop,
    inet_aton_quadStr hb1 hb2 hb3 hb4, henc]
  simp [send_message, hw]
  exact hid

/-- C5: from OPEN_CONFIRM, receiving a KEEPALIVE moves the session to
ESTABLISHED; no UPDATE is written when `originated_prefixes` is empty,
and exactly one UPDATE containing all originated prefixes (its NLRI is
their encoding and decodes back to the full list) is written when it is
non-empty. -/
theorem C5_open_confirm_keepalive {s : Session} (hr : Reachable s)
    (hs : s.state = BGPState.OPEN_CONFIRM)
    {b1 b2 b3 b4 : Nat} (hb1 : b1 < 256) (hb2 : b2 < 256) (hb3 : b3 < 256)
    (hb4 : b4 < 256) (hid : s.bgp_id = quadStr b1 b2 b3 b4)
    (hasn : s.my_as < 65536)
    (hpre : ∀ p ∈ s.originated_prefixes, ∃ ip len, p = cidrStr ip len ∧
      ip < 4294967296 ∧ len ≤ 32 ∧ ip % 2 ^ (32 - len) = 0) :
    ∃ s' out, process_message s Msg.keepaliveMsg = some (s', out) ∧
      s'.state = BGPState.ESTABLISHED ∧
      (s.originated_prefixes = [] → out = []) ∧
      (s.originated_prefixes ≠ [] → ∃ pa nl,
        out = [Msg.updateMsg [] pa nl] ∧
        encode_nlri s.originated_prefixes = some nl ∧
        decode_nlri nl = some s.originated_prefixes) := by
  have inv := reachable_inv hr
  have hw : s.writerAttached = true := (inv.started (by rw [hs]; simp)).1
  have hstep : process_message s Msg.keepaliveMsg =
      send_update { s with msgs_received := s.msgs_received + 1
                           holdResetEvent := true
                           state := BGPState.ESTABLISHED } := by
    rw [process_message.eq_def]
    simp only [hs]
  by_cases hemp : s.originated_prefixes = []
  · refine ⟨{ s with msgs_received := s.msgs_received + 1
                     holdResetEvent := true
                     state := BGPState.ESTABLISHED }, [], ?_, rfl,
      fun _ => rfl, fun hne => absurd hemp hne⟩
    rw [hstep, send_update, if_pos hemp]
  · obtain ⟨pa, nl, hsu, henc, hdec⟩ := send_update_spec
      (s := { s with msgs_received := s.msgs_received + 1
                     holdResetEvent := true
                     state := BGPState.ESTABLISHED })
      hw hb1 hb2 hb3 hb4 hid hasn hpre hemp
    refine ⟨{ s with msgs_received := s.msgs_received + 1
                     holdResetEvent := true
                     state := BGPState.ESTABLISHED
                     msgs_sent := s.msgs_sent + 1 },
      [Msg.updateMsg [] pa nl], ?_, rfl, fun he => absurd he hemp,
      fun _ => ⟨pa, nl, rfl, henc, hdec⟩⟩
    rw [hstep, hsu]

/-- Sessions for the C5 witness: bring a session with one originated
prefix to OPEN_CONFIRM. -/
def c5s1 : Session :=
  (connection_made (BGPSession.init 65001 (("1.1.1.1").toList)
    (("2.2.2.2").toList) 180 [("10.0.0.0/24").toList]) 0).1

def c5s2 : Session :=
  ((process_message c5s1 (Msg.openMsg 4 65002 90 [] [])).getD (c5s1, [])).1

theorem c5s2_reachable : Reachable c5s2 :=
  Reachable.recv
    (Reachable.connect 0 (Reachable.init 65001 (("1.1.1.1").toList)
      (("2.2.2.2").toList) 180 [("10.0.0.0/24").toList]) rfl)
    (show process_message c5s1 (Msg.openMsg 4 65002 90 [] []) =
      some (c5s2, [Msg.keepaliveMsg]) by decide)

/-- Witness for C5 at a concrete reachable OPEN_CONFIRM session. -/
theorem C5_open_confirm_keepalive_witness :
    c5s2.state = BGPState.OPEN_CONFIRM ∧
    ∃ s' out, process_message c5s2 Msg.keepaliveMsg = some (s', out) ∧
      s'.state = BGPState.ESTABLISHED ∧
      (c5s2.originated_prefixes = [] → out = []) ∧
      (c5s2.originated_prefixes ≠ [] → ∃ pa nl,
        out = [Msg.updateMsg [] pa nl] ∧
        encode_nlri c5s2.originated_prefixes = some nl ∧
        decode_nlri nl = some c5s2.originated_prefixes) :=
  ⟨by decide,
    C5_open_confirm_keepalive
      c5s2_reachable (by decide) (show (1 : Nat) < 256 by decide)
      (show (1 : Nat) < 256 by decide) (show (1 : Nat) < 256 by decide)
      (show (1 : Nat) < 256 by decide)
      (show c5s2.bgp_id = quadStr 1 1 1 1 by decide) (by decide)
      (by
        intro p hp
        rw [show c5s2.originated_prefixes = [("10.0.0.0/24").toList]
          from by decide] at hp
        simp only [List.mem_cons, List.not_mem_nil, or_false] at hp
        rcases hp with rfl
        exact ⟨167772160, 24, by decide, by decide, by decide, by decide⟩)⟩

/-- Sessions for C6: an OPEN_SENT session and the OPEN_CONFIRM session
obtained from it by processing the peer's OPEN. -/
def c6s1 : Session :=
  (connection_made (BGPSession.init 65001 (("1.1.1.1").toList)
    (("2.2.2.2").toList) 180 []) 0).1

def c6s2 : Session :=
  ((process_message c6s1 (Msg.openMsg 4 65002 90 [] [])).getD (c6s1, [])).1

theorem c6s1_reachable : Reachable c6s1 :=
  Reachable.connect 0 (Reachable.init 65001 (("1.1.1.1").toList)
    (("2.2.2.2").toList) 180 []) rfl

theorem c6s2_reachable : Reachable c6s2 :=
  Reachable.recv c6s1_reachable
    (show process_message c6s1 (Msg.openMsg 4 65002 90 [] []) =
      some (c6s2, [Msg.keepaliveMsg]) by decide)

/-- C6 counterexample: a reachable session in OPEN_CONFIRM that
receives an UPDATE — a message unexpected in that state — sends
nothing (in particular no NOTIFICATION(5,1)) and stays in
OPEN_CONFIRM instead of closing to IDLE. -/
theorem C6_fsm_violation_counterexample :
    c6s2.state = BGPState.OPEN_CONFIRM ∧
    process_message c6s2 (Msg.updateMsg [] [] []) =
      some ({ c6s2 with msgs_received := c6s2.msgs_received + 1
                        holdResetEvent := true }, []) ∧
    ({ c6s2 with msgs_received := c6s2.msgs_received + 1
                 holdResetEvent := true }).state = BGPState.OPEN_CONFIRM ∧
    ({ c6s2 with msgs_received := c6s2.msgs_received + 1
                 holdResetEvent := true }).writerClosed = false := by
  decide

/-- C6 (amended): in OPEN_SENT, any message other than OPEN or
NOTIFICATION (a KEEPALIVE or an UPDATE) triggers NOTIFICATION(5,1)
followed by close, ending in IDLE; in OPEN_CONFIRM only an unexpected
OPEN does so, while an UPDATE is silently ignored with no state
change and nothing sent. -/
theorem C6_fsm_violation {s : Session} (hr : Reachable s) :
    (s.state = BGPState.OPEN_SENT →
      ∀ m, (m = Msg.keepaliveMsg ∨ ∃ w pa nl, m = Msg.updateMsg w pa nl) →
      process_message s m =
        some ({ s with msgs_received := s.msgs_received + 1
                       holdResetEvent := true
                       msgs_sent := s.msgs_sent + 1
                       writerClosed := true
                       keepaliveTimerArmed := false
                       holdTimerArmed := false
                       state := BGPState.IDLE },
          [Msg.notificationMsg 5 1 []])) ∧
    (s.state = BGPState.OPEN_CONFIRM → ∀ v a h bid opts,
      process_message s (Msg.openMsg v a h bid opts) =
        some ({ s with msgs_received := s.msgs_received + 1
                       holdResetEvent := true
                       msgs_sent := s.msgs_sent + 1
                       writerClosed := true
                       keepaliveTimerArmed := false
                       holdTimerArmed := false
                       state := BGPState.IDLE },
          [Msg.notificationMsg 5 1 []])) ∧
    (s.state = BGPState.OPEN_CONFIRM → ∀ w pa nl,
      process_message s (Msg.updateMsg w pa nl) =
        some ({ s with msgs_received := s.msgs_received + 1
                       holdResetEvent := true }, [])) := by
  have inv := reachable_inv hr
  refine ⟨?_, ?_, ?_⟩
  · intro hs m hm
    have hw : s.writerAttached = true := (inv.started (by rw [hs]; simp)).1
    rcases hm with rfl | ⟨w, pa, nl, rfl⟩ <;>
      · rw [process_message.eq_def]
        simp only [hs]
        simp [send_notification, send_message, close_connection, hw]
  · intro hs v a h bid opts
    have hw : s.writerAttached = true := (inv.started (by rw [hs]; simp)).1
    rw [process_message.eq_def]
    simp only [hs]
    simp [send_notification, send_message, close_connection, hw]
  · intro hs w pa nl
    rw [process_message.eq_def]
    simp only [hs]

/-- Witness for the amended C6 at concrete reachable sessions. -/
theorem C6_fsm_violation_witness :
    process_message c6s1 Msg.keepaliveMsg =
      some ({ c6s1 with msgs_received := c6s1.msgs_received + 1
                        holdResetEvent := true
                        msgs_sent := c6s1.msgs_sent + 1
                        writerClosed := true
                        keepaliveTimerArmed := false
                        holdTimerArmed := false
                        state := BGPState.IDLE },
        [Msg.notificationMsg 5 1 []]) ∧
    process_message c6s2 (Msg.openMsg 4 65003 30 [] []) =
      some ({ c6s2 with msgs_received := c6s2.msgs_received + 1
                        holdResetEvent := true
                        msgs_sent := c6s2.msgs_sent + 1
                        writerClosed := true
                        keepaliveTimerArmed := false
                        holdTimerArmed := false
                        state := BGPState.IDLE },
        [Msg.notificationMsg 5 1 []]) ∧
    process_message c6s2 (Msg.updateMsg [] [] []) =
      some ({ c6s2 with msgs_received := c6s2.msgs_received + 1
                        holdResetEvent := true }, []) :=
  ⟨(C6_fsm_violation c6s1_reachable).1 (by decide) Msg.keepaliveMsg (Or.inl rfl),
    (C6_fsm_violation c6s2_reachable).2.1 (by decide) 4 65003 30 [] [],
    (C6_fsm_violation c6s2_reachable).2.2 (by decide) [] [] []⟩

theorem scan_attrs_single_next_hop (b1 b2 b3 b4 : Nat) (nh : PyStr) :
    scan_attrs [64, 3, 4, b1, b2, b3, b4] nh = some (quadStr b1 b2 b3 b4) := by
  show scanAttrsAux 7 [64, 3, 4, b1, b2, b3, b4] nh = _
  simp [scanAttrsAux, inet_ntoaBytes, show Nat.land 64 16 = 0 from by decide]

/-- The ESTABLISHED × UPDATE step of `process_message`, explicitly:
no message is written and exactly one Route per decoded prefix is
appended to `adj_rib_in`, everything before it unchanged. -/
theorem established_update_eq {s : Session}
    (hs : s.state = BGPState.ESTABLISHED) {w pa nl : List Nat}
    {ps : List PyStr} {nh : PyStr} (hdec : decode_nlri nl = some ps)
    (hscan : scan_attrs pa (("Unknown").toList) = some nh) :
    process_message s (Msg.updateMsg w pa nl) =
      some ({ s with msgs_received := s.msgs_received + 1
                     holdResetEvent := true
                     adj_rib_in := s.adj_rib_in ++
                       ps.map (fun p => ⟨p, nh, [], ("IGP").toList⟩) }, []) := by
  rw [process_message.eq_def]
  simp only [hs]
  rw [handle_update_msg]
  rw [show decode_nlri nl = some ps from hdec]
  rw [show scan_attrs pa (("Unknown").toList) = some nh from hscan]
  rfl

/-- C8: an UPDATE processed in ESTABLISHED appends exactly one
`Route{prefix, next_hop, as_path=[], origin="IGP"}` per decoded NLRI
prefix to `adj_rib_in` (next hop from the scan of the path attributes,
which recovers the NEXT_HOP attribute value when one is present), with
all previous entries unchanged and in place, and writes nothing. -/
theorem C8_update_ingestion {s : Session}
    (hs : s.state = BGPState.ESTABLISHED) {w pa nl : List Nat}
    {ps : List PyStr} {nh : PyStr} (hdec : decode_nlri nl = some ps)
    (hscan : scan_attrs pa (("Unknown").toList) = some nh) :
    (process_message s (Msg.updateMsg w pa nl) =
      some ({ s with msgs_received := s.msgs_received + 1
                     holdResetEvent := true
                     adj_rib_in := s.adj_rib_in ++
                       ps.map (fun p => ⟨p, nh, [], ("IGP").toList⟩) }, [])) ∧
    (∀ b1 b2 b3 b4 : Nat,
      scan_attrs [64, 3, 4, b1, b2, b3, b4] (("Unknown").toList) =
        some (quadStr b1 b2 b3 b4)) :=
  ⟨established_update_eq hs hdec hscan,
    fun b1 b2 b3 b4 => scan_attrs_single_next_hop b1 b2 b3 b4 _⟩

/-- Session for the C8 witness: an ESTABLISHED session with one route
already in the RIB. -/
def c8s : Session :=
  { BGPSession.init 65001 (("1.1.1.1").toList) (("2.2.2.2").toList) 180 [] with
      state := BGPState.ESTABLISHED
      writerAttached := true
      start_time := some 0
      adj_rib_in := [⟨("172.16.0.0/16").toList, ("9.9.9.9").toList, [],
        ("IGP").toList⟩] }

/-- Witness for C8 at a concrete session and UPDATE. -/
theorem C8_update_ingestion_witness :
    c8s.state = BGPState.ESTABLISHED ∧
    (process_message c8s
        (Msg.updateMsg [] [64, 3, 4, 10, 0, 0, 1] [24, 10, 1, 2]) =
      some ({ c8s with msgs_received := c8s.msgs_received + 1
                       holdResetEvent := true
                       adj_rib_in := c8s.adj_rib_in ++
                         [("10.1.2.0/24").toList].map
                           (fun p => ⟨p, ("10.0.0.1").toList, [],
                             ("IGP").toList⟩) }, [])) ∧
    (∀ b1 b2 b3 b4 : Nat,
      scan_attrs [64, 3, 4, b1, b2, b3, b4] (("Unknown").toList) =
        some (quadStr b1 b2 b3 b4)) := by
  have h := C8_update_ingestion (s := c8s) (w := []) (by decide)
    (show decode_nlri [24, 10, 1, 2] = some [("10.1.2.0/24").toList] by decide)
    (show scan_attrs [64, 3, 4, 10, 0, 0, 1] (("Unknown").toList) =
      some (("10.0.0.1").toList) by decide)
  exact ⟨by decide, h.1, h.2⟩

theorem scanAttrsAux_no_next_hop {fuel : Nat} {pa ts : List Nat}
    (h : scanTypesAux fuel pa = some ts) (h3 : 3 ∉ ts) :
    ∀ nh, scanAttrsAux fuel pa nh = some nh := by
  induction fuel generalizing pa ts with
  | zero =>
    intro nh
    cases pa with
    | nil => rfl
    | cons a as => simp [scanTypesAux] at h
  | succ fuel ih =>
    intro nh
    rcases pa with _ | ⟨flags, _ | ⟨tc, rest⟩⟩
    · rfl
    · simp [scanTypesAux] at h
    · simp only [scanTypesAux] at h
      simp only [scanAttrsAux]
      by_cases hf : flags.land 16 ≠ 0
      · rw [if_pos hf] at h
        rw [if_pos hf]
        rcases rest with _ | ⟨l1, _ | ⟨l2, rest2⟩⟩
        · cases h
        · cases h
        · rw [Option.map_eq_some'] at h
          obtain ⟨ts', hts', rfl⟩ := h
          have htc : tc ≠ 3 := fun hh => h3 (by rw [hh]; exact List.mem_cons_self 3 ts')
          simp only [if_neg htc]
          exact ih hts' (fun hm => h3 (List.mem_cons_of_mem _ hm)) nh
      · rw [if_neg hf] at h
        rw [if_neg hf]
        rcases rest with _ | ⟨l1, rest2⟩
        · cases h
        · rw [Option.map_eq_some'] at h
          obtain ⟨ts', hts', rfl⟩ := h
          have htc : tc ≠ 3 := fun hh => h3 (by rw [hh]; exact List.mem_cons_self 3 ts')
          simp only [if_neg htc]
          exact ih hts' (fun hm => h3 (List.mem_cons_of_mem _ hm)) nh

/-- C10: an UPDATE processed in ESTABLISHED whose path-attribute block
contains no NEXT_HOP attribute (type 3) appends its routes with
`next_hop` equal to the literal string "Unknown". -/
theorem C10_next_hop_unknown {s : Session}
    (hs : s.state = BGPState.ESTABLISHED) {w pa nl : List Nat}
    {ps : List PyStr} {ts : List Nat}
    (htypes : scan_types pa = some ts) (h3 : 3 ∉ ts)
    (hdec : decode_nlri nl = some ps) :
    process_message s (Msg.updateMsg w pa nl) =
      some ({ s with msgs_received := s.msgs_received + 1
                     holdResetEvent := true
                     adj_rib_in := s.adj_rib_in ++
                       ps.map (fun p => ⟨p, ("Unknown").toList, [],
                         ("IGP").toList⟩) }, []) :=
  established_update_eq hs hdec (scanAttrsAux_no_next_hop htypes h3 _)

/-- Session for the C10 witness. -/
def c10s : Session :=
  { BGPSession.init 65001 (("1.1.1.1").toList) (("2.2.2.2").toList) 180 [] with
      state := BGPState.ESTABLISHED
      writerAttached := true
      start_time := some 0 }

/-- Witness for C10 at a concrete session and an UPDATE with an empty
attribute block. -/
theorem C10_next_hop_unknown_witness :
    c10s.state = BGPState.ESTABLISHED ∧
    scan_types [] = some [] ∧
    process_message c10s (Msg.updateMsg [] [] [24, 10, 1, 2]) =
      some ({ c10s with msgs_received := c10s.msgs_received + 1
                        holdResetEvent := true
                        adj_rib_in := c10s.adj_rib_in ++
                          [("10.1.2.0/24").toList].map
                            (fun p => ⟨p, ("Unknown").toList, [],
                              ("IGP").toList⟩) }, []) :=
  ⟨by decide, by decide,
    C10_next_hop_unknown (s := c10s) (w := []) (by decide)
      (show scan_types [] = some [] by decide) (by decide)
      (show decode_nlri [24, 10, 1, 2] = some [("10.1.2.0/24").toList] by decide)⟩

/-! Uptime formatting for C9 -/

theorem mem_pad2_isDigit {n : Nat} {c : Char} (hc : c ∈ pad2 n) :
    isDigit c = true := by
  rw [pad2] at hc
  split at hc
  · rcases List.mem_cons.mp hc with rfl | hc'
    · decide
    · exact mem_natDigits_isDigit hc'
  · exact mem_natDigits_isDigit hc

theorem beforeDot_all {cs : PyStr} (h : ∀ c ∈ cs, c ≠ '.') :
    beforeDot cs = cs := by
  induction cs with
  | nil => rfl
  | cons c t ih =>
    have hc : (c != '.') = true := by
      simp only [bne_iff_ne, ne_eq]
      exact h c (List.mem_cons_self c t)
    rw [beforeDot, List.takeWhile_cons, hc]
    simp only [if_true, List.cons.injEq, true_and]
    exact ih fun x hx => h x (List.mem_cons_of_mem _ hx)

theorem beforeDot_append_dot {cs rest : PyStr} (h : ∀ c ∈ cs, c ≠ '.') :
    beforeDot (cs ++ '.' :: rest) = cs := by
  induction cs with
  | nil =>
    rw [List.nil_append, beforeDot, List.takeWhile_cons]
    simp
  | cons c t ih =>
    have hc : (c != '.') = true := by
      simp only [bne_iff_ne, ne_eq]
      exact h c (List.mem_cons_self c t)
    rw [List.cons_append, beforeDot, List.takeWhile_cons, hc]
    simp only [if_true, List.cons.injEq, true_and]
    exact ih fun x hx => h x (List.mem_cons_of_mem _ hx)

theorem no_dot_hmmss (H M S : Nat) :
    ∀ c ∈ ((natDigits H ++ ':' :: pad2 M) ++ ':' :: pad2 S), c ≠ '.' := by
  intro c hc he
  subst he
  simp only [List.mem_append, List.mem_cons] at hc
  rcases hc with (hc | hc | hc) | hc | hc
  · exact absurd (mem_natDigits_isDigit hc) (by decide)
  · cases hc
  · exact absurd (mem_pad2_isDigit hc) (by decide)
  · cases hc
  · exact absurd (mem_pad2_isDigit hc) (by decide)

theorem beforeDot_strTimedelta {u : Nat} (hu : u < 86400000000) :
    beforeDot (strTimedelta u) = specHMMSS u := by
  rw [strTimedelta, specHMMSS]
  have hd : u / 1000000 / 86400 = 0 := by omega
  rw [hd]
  have h24 : u / 1000000 / 3600 % 24 = u / 1000000 / 3600 := by omega
  rw [h24]
  simp only [if_pos rfl, List.nil_append]
  by_cases hm : u % 1000000 = 0
  · rw [if_pos hm, List.append_nil]
    exact beforeDot_all (no_dot_hmmss _ _ _)
  · rw [if_neg hm]
    exact beforeDot_append_dot (no_dot_hmmss _ _ _)

/-- Sessions for C9: bring a session to ESTABLISHED (start time 0). -/
def c9s1 : Session :=
  (connection_made (BGPSession.init 65001 (("1.1.1.1").toList)
    (("2.2.2.2").toList) 180 []) 0).1

def c9s2 : Session :=
  ((process_message c9s1 (Msg.openMsg 4 65002 90 [] [])).getD (c9s1, [])).1

def c9s3 : Session :=
  ((process_message c9s2 Msg.keepaliveMsg).getD (c9s2, [])).1

/-- C9 counterexample: for an ESTABLISHED session whose uptime reaches
twenty-four hours, the handler reports `str(timedelta)` in its
days form "1 day, 0:00:00", which is not the `H:MM:SS` rendering
"24:00:00" of the wall-clock delta the claim describes. -/
theorem C9_uptime_counterexample :
    c9s3.state = BGPState.ESTABLISHED ∧
    c9s3.start_time = some 0 ∧
    (show_neighbors_row c9s3 86400000000).uptime = ("1 day, 0:00:00").toList ∧
    specHMMSS (86400000000 - 0) = ("24:00:00").toList ∧
    (show_neighbors_row c9s3 86400000000).uptime ≠ specHMMSS (86400000000 - 0) := by
  decide

/-- C9 (amended): the `show_neighbors` uptime is "N/A" whenever the
session is not ESTABLISHED; when it is ESTABLISHED (with a recorded
start time) and the wall-clock delta is under twenty-four hours, the
uptime is that delta formatted `H:MM:SS` with no fractional seconds
(for deltas of a day or more the handler reports Python's
"D day(s), H:MM:SS" form instead). -/
theorem C9_show_neighbors_uptime (s : Session) (now : Nat) :
    (s.state ≠ BGPState.ESTABLISHED →
      (show_neighbors_row s now).uptime = ("N/A").toList) ∧
    (∀ st, s.state = BGPState.ESTABLISHED → s.start_time = some st →
      now - st < 86400000000 →
      (show_neighbors_row s now).uptime = specHMMSS (now - st)) := by
  constructor
  · intro hne
    show neighbor_uptime s now = ("N/A").toList
    rw [neighbor_uptime.eq_def]
    split
    · rfl
    · rw [if_neg hne]
  · intro st hs hst hlt
    show neighbor_uptime s now = specHMMSS (now - st)
    rw [neighbor_uptime.eq_def, hst]
    show (if s.state = BGPState.ESTABLISHED then beforeDot (strTimedelta (now - st))
      else ("N/A").toList) = specHMMSS (now - st)
    rw [if_pos hs]
    exact beforeDot_strTimedelta hlt

/-- Witness for the amended C9: an OPEN_SENT session reports "N/A";
an ESTABLISHED session one hour, two minutes, five and a half seconds
in reports "1:02:05". -/
theorem C9_show_neighbors_uptime_witness :
    (show_neighbors_row c9s1 5).uptime = ("N/A").toList ∧
    (show_neighbors_row c9s3 3725500000).uptime = specHMMSS (3725500000 - 0) :=
  ⟨(C9_show_neighbors_uptime c9s1 5).1 (by decide),
    (C9_show_neighbors_uptime c9s3 3725500000).2 0 (by decide) (by decide)
      (by decide)⟩

end BGPAgent
